import Mathlib

/-!
Shallow embedding of `src/reverse_proxy.py` (Rufemlike/reverse-proxy-6to4).

Bytes read from a socket are decoded with `data.decode('ISO-8859-1', 'ignore')`
and re-encoded with `str_data.encode('ISO-8859-1')` (lines 114 and 120 of the
source).  ISO-8859-1 is a bijection between byte values 0..255 and the code
points U+0000..U+00FF, so a byte buffer is modelled faithfully as a `List Char`.
-/

set_option autoImplicit false

/-- Decimal digits of the configured target port, as the Python f-string
interpolation `f'...{self.port}'` renders a non-negative `int`. -/
def portChars (port : Nat) : List Char :=
  (Nat.repr port).data

/-- The replacement text `f'127.0.0.1:{self.port}'` built at line 119 of the
source. -/
def repChars (port : Nat) : List Char :=
  ("127.0.0.1:".data) ++ portChars port

/-- Boolean test that the first argument is an initial segment of the second,
used to model a literal sub-pattern matching at the current position. -/
def startsList : List Char → List Char → Bool
  | [], _ => true
  | _ :: _, [] => false
  | a :: ps, b :: bs => if a = b then startsList ps bs else false

/-- Models the regex fragment `[^]]*]`: consumes characters up to the first
`]` (the character class `[^]]` cannot cross a `]`, so the greedy star has a
unique viable extent), returning the consumed characters and the remainder
after the `]`.  Returns `none` when no `]` follows, in which case the regex
fragment cannot match at this position. -/
def scanBracket : List Char → Option (List Char × List Char)
  | [] => none
  | c :: cs =>
    if c = ']' then some ([], cs)
    else
      match scanBracket cs with
      | some (inn, rest) => some (c :: inn, rest)
      | none => none

/-- Attempts to match the compiled pattern `\[[^]]*]:{self.port}` (line 113 of
the source) at the current position, returning the matched text
`str_data[ipm.start():ipm.end()]` on success. -/
def matchAt (pstr : List Char) (s : List Char) : Option (List Char) :=
  match s with
  | [] => none
  | c :: rest =>
    if c = '[' then
      match scanBracket rest with
      | some (inn, rest2) =>
        if startsList (':' :: pstr) rest2 then
          some ('[' :: (inn ++ ']' :: ':' :: pstr))
        else none
      | none => none
    else none

/-- `ip6.search(str_data)` (line 115): the leftmost match of the pattern in the
buffer, returned as its matched text. -/
def searchFrom (pstr : List Char) : List Char → Option (List Char)
  | [] => none
  | c :: cs =>
    match matchAt pstr (c :: cs) with
    | some m => some m
    | none => searchFrom pstr cs

/-- Fuel-indexed core of Python `str.replace(old, new)`: scans left to right,
replacing every non-overlapping occurrence of `pat` and resuming after the
replaced span.  The fuel is always instantiated with the length of the scanned
list, which the recursion never exceeds. -/
def replaceAllAux (pat rep : List Char) : Nat → List Char → List Char
  | _, [] => []
  | 0, s => s
  | fuel + 1, c :: cs =>
    if startsList pat (c :: cs) = true ∧ pat ≠ [] then
      rep ++ replaceAllAux pat rep fuel (List.drop (pat.length - 1) cs)
    else
      c :: replaceAllAux pat rep fuel cs

/-- Python `str.replace(old, new)` as invoked at line 118 of the source:
replaces every non-overlapping occurrence of `pat`, left to right. -/
def replaceAll (pat rep s : List Char) : List Char :=
  replaceAllAux pat rep s.length s

/-- The rewrite applied to client→upstream data (lines 113–120 of the source):
search for the first match of `\[[^]]*]:{self.port}`; when one is found,
`str.replace` substitutes `127.0.0.1:{self.port}` for every occurrence of that
matched text; otherwise the buffer is returned unchanged. -/
def rewriteHost (port : Nat) (data : List Char) : List Char :=
  match searchFrom (portChars port) data with
  | some m => replaceAll m (repChars port) data
  | none => data

/-- The matched text of the pattern for a given bracket interior. -/
def patText (pstr inner : List Char) : List Char :=
  '[' :: (inner ++ ']' :: ':' :: pstr)

/-- A buffer contains an occurrence of the bracketed-address pattern followed
by the target-port digits: some `[<no ']'>]:` immediately followed by `pstr`
occurs somewhere in the buffer.  This is the spec's reading of the pattern in
§4.4, stated independently of the matcher above. -/
def patOccurs (pstr s : List Char) : Prop :=
  ∃ pre inner post,
    s = pre ++ '[' :: (inner ++ ']' :: ':' :: (pstr ++ post)) ∧ ']' ∉ inner

/-! ### Lemmas about the pattern matcher -/

theorem startsList_self_append (p t : List Char) : startsList p (p ++ t) = true := by
  induction p with
  | nil => rfl
  | cons a ps ih => simp [startsList, ih]

theorem startsList_sound (p : List Char) :
    ∀ s : List Char, startsList p s = true → ∃ t, s = p ++ t := by
  induction p with
  | nil => exact fun s _ => ⟨s, rfl⟩
  | cons a ps ih =>
    intro s hs
    cases s with
    | nil => simp [startsList] at hs
    | cons b bs =>
      by_cases hab : a = b
      · subst hab
        simp [startsList] at hs
        obtain ⟨t, ht⟩ := ih bs hs
        exact ⟨t, by simp [ht]⟩
      · simp [startsList, hab] at hs

theorem scanBracket_build (inner rest : List Char) (h : ']' ∉ inner) :
    scanBracket (inner ++ ']' :: rest) = some (inner, rest) := by
  induction inner with
  | nil => simp [scanBracket]
  | cons c cs ih =>
    have hc : ¬ c = ']' := fun hcc => h (by simp [hcc])
    have h' : ']' ∉ cs := fun hmem => h (List.mem_cons_of_mem _ hmem)
    simp [scanBracket, hc, ih h']

theorem scanBracket_sound :
    ∀ s inn rest : List Char, scanBracket s = some (inn, rest) →
      s = inn ++ ']' :: rest ∧ ']' ∉ inn := by
  intro s
  induction s with
  | nil => intro inn rest h; simp [scanBracket] at h
  | cons c cs ih =>
    intro inn rest h
    by_cases hc : c = ']'
    · subst hc
      simp [scanBracket] at h
      obtain ⟨h1, h2⟩ := h
      subst h1; subst h2
      simp
    · simp only [scanBracket, if_neg hc] at h
      cases hsb : scanBracket cs with
      | none => rw [hsb] at h; simp at h
      | some pr =>
        obtain ⟨i2, r2⟩ := pr
        rw [hsb] at h
        simp at h
        obtain ⟨h1, h2⟩ := h
        obtain ⟨hcs, hni⟩ := ih i2 r2 hsb
        subst h1; subst h2
        refine ⟨by simp [hcs], ?_⟩
        intro hmem
        rcases List.mem_cons.mp hmem with h | h
        · exact hc h.symm
        · exact hni h

theorem matchAt_build (pstr inner post : List Char) (h : ']' ∉ inner) :
    matchAt pstr ('[' :: (inner ++ ']' :: ':' :: (pstr ++ post)))
      = some ('[' :: (inner ++ ']' :: ':' :: pstr)) := by
  have hsb : scanBracket (inner ++ ']' :: (':' :: (pstr ++ post)))
      = some (inner, ':' :: (pstr ++ post)) := scanBracket_build _ _ h
  simp [matchAt, hsb, startsList, startsList_self_append]

theorem matchAt_sound (pstr : List Char) :
    ∀ s m : List Char, matchAt pstr s = some m →
      ∃ inner post, s = '[' :: (inner ++ ']' :: ':' :: (pstr ++ post)) ∧
        ']' ∉ inner ∧ m = '[' :: (inner ++ ']' :: ':' :: pstr) := by
  intro s m h
  cases s with
  | nil => simp [matchAt] at h
  | cons c rest =>
    by_cases hc : c = '['
    · subst hc
      simp only [matchAt, if_pos rfl] at h
      cases hsb : scanBracket rest with
      | none => rw [hsb] at h; simp at h
      | some pr =>
        obtain ⟨inn, rest2⟩ := pr
        rw [hsb] at h
        by_cases hsp : startsList (':' :: pstr) rest2 = true
        · simp only [hsp, if_true] at h
          obtain ⟨hrest, hni⟩ := scanBracket_sound rest inn rest2 hsb
          obtain ⟨t, ht⟩ := startsList_sound _ rest2 hsp
          refine ⟨inn, t, ?_, hni, by simpa using h.symm⟩
          subst hrest; subst ht
          simp
        · simp [hsp] at h
    · simp [matchAt, hc] at h

theorem matchAt_none_of_head (pstr : List Char) (c : Char) (cs : List Char)
    (hc : ¬ c = '[') : matchAt pstr (c :: cs) = none := by
  simp [matchAt, hc]

theorem searchFrom_cons_some (pstr : List Char) (c : Char) (cs m : List Char)
    (h : matchAt pstr (c :: cs) = some m) : searchFrom pstr (c :: cs) = some m := by
  simp [searchFrom, h]

theorem searchFrom_cons (pstr : List Char) (c : Char) (cs : List Char) :
    searchFrom pstr (c :: cs)
      = match matchAt pstr (c :: cs) with
        | some m => some m
        | none => searchFrom pstr cs := rfl

theorem searchFrom_append (pstr : List Char) (d : List Char) (s : List Char)
    (hd : '[' ∉ d) : searchFrom pstr (d ++ s) = searchFrom pstr s := by
  induction d with
  | nil => rfl
  | cons c cs ih =>
    have hc : ¬ c = '[' := fun hcc => hd (by simp [hcc])
    have h' : '[' ∉ cs := fun hmem => hd (List.mem_cons_of_mem _ hmem)
    have hm : matchAt pstr (c :: (cs ++ s)) = none :=
      matchAt_none_of_head pstr c (cs ++ s) hc
    rw [List.cons_append, searchFrom_cons, hm]
    exact ih h'

theorem searchFrom_sound (pstr : List Char) :
    ∀ s m : List Char, searchFrom pstr s = some m →
      ∃ pre suf, s = pre ++ suf ∧ matchAt pstr suf = some m := by
  intro s
  induction s with
  | nil => intro m h; simp [searchFrom] at h
  | cons c cs ih =>
    intro m h
    cases hm : matchAt pstr (c :: cs) with
    | some m' =>
      simp only [searchFrom, hm] at h
      exact ⟨[], c :: cs, rfl, by rw [hm, h]⟩
    | none =>
      simp only [searchFrom, hm] at h
      obtain ⟨pre, suf, hsplit, hma⟩ := ih m h
      exact ⟨c :: pre, suf, by simp [hsplit], hma⟩

/-! ### Lemmas about `replaceAll` -/

theorem replaceAllAux_fuel (pat rep : List Char) :
    ∀ f1 f2 s, s.length ≤ f1 → s.length ≤ f2 →
      replaceAllAux pat rep f1 s = replaceAllAux pat rep f2 s := by
  intro f1
  induction f1 with
  | zero =>
    intro f2 s h1 _
    have : s = [] := List.eq_nil_of_length_eq_zero (Nat.le_zero.mp h1)
    subst this
    cases f2 <;> rfl
  | succ f1' ih =>
    intro f2 s h1 h2
    cases s with
    | nil => cases f2 <;> rfl
    | cons c cs =>
      cases f2 with
      | zero => simp at h2
      | succ f2' =>
        have hc1 : cs.length ≤ f1' := by simpa using h1
        have hc2 : cs.length ≤ f2' := by simpa using h2
        by_cases hcond : startsList pat (c :: cs) = true ∧ pat ≠ []
        · simp only [replaceAllAux, if_pos hcond]
          have hd1 : (List.drop (pat.length - 1) cs).length ≤ f1' :=
            le_trans (by simp [List.length_drop]) hc1
          have hd2 : (List.drop (pat.length - 1) cs).length ≤ f2' :=
            le_trans (by simp [List.length_drop]) hc2
          rw [ih f2' _ hd1 hd2]
        · simp only [replaceAllAux, if_neg hcond]
          rw [ih f2' cs hc1 hc2]

theorem replaceAllAux_cons (pat rep : List Char) (fuel : Nat) (c : Char)
    (cs : List Char) :
    replaceAllAux pat rep (fuel + 1) (c :: cs)
      = if startsList pat (c :: cs) = true ∧ pat ≠ [] then
          rep ++ replaceAllAux pat rep fuel (List.drop (pat.length - 1) cs)
        else c :: replaceAllAux pat rep fuel cs := by
  rfl

theorem replaceAll_skip (pat rep : List Char) (c : Char) (cs : List Char)
    (h : startsList pat (c :: cs) = false) :
    replaceAll pat rep (c :: cs) = c :: replaceAll pat rep cs := by
  have hcond : ¬ (startsList pat (c :: cs) = true ∧ pat ≠ []) := by
    intro hand
    rw [h] at hand
    exact absurd hand.1 (by simp)
  simp only [replaceAll, List.length_cons]
  rw [replaceAllAux_cons, if_neg hcond]

theorem replaceAll_hit (pat rep s : List Char) (hp : pat ≠ []) :
    replaceAll pat rep (pat ++ s) = rep ++ replaceAll pat rep s := by
  cases pat with
  | nil => exact absurd rfl hp
  | cons p pt =>
    have hcond : startsList (p :: pt) (p :: (pt ++ s)) = true ∧ (p :: pt) ≠ [] := by
      refine ⟨?_, by simp⟩
      have := startsList_self_append (p :: pt) s
      simpa using this
    rw [List.cons_append]
    simp only [replaceAll, List.length_cons]
    rw [replaceAllAux_cons, if_pos hcond]
    have hdrop : List.drop ((p :: pt).length - 1) (pt ++ s) = s := by
      simp only [List.length_cons, Nat.add_sub_cancel]
      exact List.drop_left pt s
    rw [hdrop]
    congr 1
    exact replaceAllAux_fuel (p :: pt) rep ((pt ++ s).length) s.length s
      (by rw [List.length_append]; exact Nat.le_add_left _ _) (le_refl _)

theorem replaceAll_no_bracket (pt rep : List Char) :
    ∀ d : List Char, '[' ∉ d → replaceAll ('[' :: pt) rep d = d := by
  intro d
  induction d with
  | nil => intro _; rfl
  | cons c cs ih =>
    intro hd
    have hc : ¬ ('[' = c) := fun hcc => hd (by simp [hcc.symm])
    have h' : '[' ∉ cs := fun hmem => hd (List.mem_cons_of_mem _ hmem)
    rw [replaceAll_skip _ _ _ _ (by simp [startsList, hc]), ih h']

theorem replaceAll_append_no_bracket (pt rep : List Char) :
    ∀ d s : List Char, '[' ∉ d →
      replaceAll ('[' :: pt) rep (d ++ s) = d ++ replaceAll ('[' :: pt) rep s := by
  intro d
  induction d with
  | nil => intro s _; rfl
  | cons c cs ih =>
    intro s hd
    have hc : ¬ ('[' = c) := fun hcc => hd (by simp [hcc.symm])
    have h' : '[' ∉ cs := fun hmem => hd (List.mem_cons_of_mem _ hmem)
    rw [List.cons_append, replaceAll_skip _ _ _ _ (by simp [startsList, hc]),
      ih s h']
    rfl


/-! ### Claims about the Rewriter -/

/-- C1 counterexample: with target port 7245, the buffer `[a]:7245[a]:7245`
contains the pattern twice; the claim says only the first matched span is
rewritten and the second occurrence stays byte-identical, but
`str.replace` substitutes every occurrence of the first matched text, so the
output rewrites both occurrences and differs from the claimed output. -/
theorem C1_counterexample :
    rewriteHost 7245 ("[a]:7245[a]:7245".data)
        = ("127.0.0.1:7245127.0.0.1:7245".data) ∧
      rewriteHost 7245 ("[a]:7245[a]:7245".data)
        ≠ ("127.0.0.1:7245[a]:7245".data) := by
  constructor
  · decide
  · decide

/-- C1 (amended): for a buffer in which the pattern occurs more than once, the
client→upstream rewrite replaces every occurrence of the first matched span's
exact text — in particular a later occurrence identical to the first is also
replaced — while material between and around the occurrences is preserved.
The hypotheses pin the two pattern occurrences as the only places where a
match can start (`[` opens every match) and make the bracket interior
well formed. -/
theorem C1_amended (port : Nat) (d0 d1 d2 inner : List Char)
    (h0 : '[' ∉ d0) (h1 : '[' ∉ d1) (h2 : '[' ∉ d2) (hrb : ']' ∉ inner) :
    rewriteHost port
        (d0 ++ patText (portChars port) inner ++ d1
          ++ patText (portChars port) inner ++ d2)
      = d0 ++ repChars port ++ d1 ++ repChars port ++ d2 := by
  set pstr := portChars port with hpstr
  have hmne : patText pstr inner ≠ [] := by simp [patText]
  have hassoc :
      d0 ++ patText pstr inner ++ d1 ++ patText pstr inner ++ d2
        = d0 ++ (patText pstr inner ++ (d1 ++ (patText pstr inner ++ d2))) := by
    simp [List.append_assoc]
  have hshape :
      patText pstr inner ++ (d1 ++ (patText pstr inner ++ d2))
        = '[' :: (inner ++ ']' :: ':' ::
            (pstr ++ (d1 ++ (patText pstr inner ++ d2)))) := by
    simp [patText, List.append_assoc]
  have hsearch :
      searchFrom pstr
          (d0 ++ patText pstr inner ++ d1 ++ patText pstr inner ++ d2)
        = some (patText pstr inner) := by
    rw [hassoc, searchFrom_append pstr d0 _ h0, hshape]
    exact searchFrom_cons_some _ _ _ _
      (matchAt_build pstr inner (d1 ++ (patText pstr inner ++ d2)) hrb)
  have hpat : patText pstr inner = '[' :: (inner ++ ']' :: ':' :: pstr) := rfl
  have hrepl :
      replaceAll (patText pstr inner) (repChars port)
          (d0 ++ patText pstr inner ++ d1 ++ patText pstr inner ++ d2)
        = d0 ++ repChars port ++ d1 ++ repChars port ++ d2 := by
    rw [hassoc, hpat]
    rw [replaceAll_append_no_bracket _ _ d0 _ h0]
    rw [show ('[' : Char) :: (inner ++ ']' :: ':' :: pstr) = patText pstr inner
      from rfl]
    rw [replaceAll_hit _ _ _ hmne, hpat]
    rw [replaceAll_append_no_bracket _ _ d1 _ h1]
    rw [show ('[' : Char) :: (inner ++ ']' :: ':' :: pstr) = patText pstr inner
      from rfl]
    rw [replaceAll_hit _ _ _ hmne, hpat]
    rw [replaceAll_no_bracket _ _ d2 h2]
    simp [List.append_assoc]
  rw [rewriteHost, hsearch]
  exact hrepl

/-- C1 witness: the amended statement evaluated on a concrete buffer holding
two identical occurrences of `[fe80::1]:7245`. -/
theorem C1_witness :
    rewriteHost 7245
        ("Host: ".data ++ patText (portChars 7245) ("fe80::1".data) ++ " and ".data
          ++ patText (portChars 7245) ("fe80::1".data) ++ " end".data)
      = "Host: ".data ++ repChars 7245 ++ " and ".data ++ repChars 7245
          ++ " end".data :=
  C1_amended 7245 ("Host: ".data) (" and ".data) (" end".data) ("fe80::1".data)
    (by decide) (by decide) (by decide) (by decide)

/-- C5: if a byte buffer contains no occurrence of the bracketed-address
pattern followed by the decimal target port, the client→upstream rewrite is
the identity on it. -/
theorem C5_theorem (port : Nat) (data : List Char)
    (h : ¬ patOccurs (portChars port) data) : rewriteHost port data = data := by
  cases hs : searchFrom (portChars port) data with
  | none => rw [rewriteHost, hs]
  | some m =>
    exfalso
    obtain ⟨pre, suf, hsplit, hma⟩ := searchFrom_sound _ data m hs
    obtain ⟨inner, post, hsuf, hni, -⟩ := matchAt_sound _ suf m hma
    exact h ⟨pre, inner, post, by rw [hsplit, hsuf], hni⟩

/-- C5 witness: a concrete pattern-free buffer is untouched. -/
theorem C5_witness :
    rewriteHost 7245 ("GET / HTTP/1.1".data) = "GET / HTTP/1.1".data := by
  have h : ¬ patOccurs (portChars 7245) ("GET / HTTP/1.1".data) := by
    rintro ⟨pre, inner, post, heq, -⟩
    have hb : '[' ∈ ("GET / HTTP/1.1".data) := by
      rw [heq]
      exact List.mem_append.mpr (Or.inr (List.mem_cons_self _ _))
    revert hb
    decide
  exact C5_theorem 7245 ("GET / HTTP/1.1".data) h

/-- C7: with target port 7245, the rewrite maps the concrete request
`GET / HTTP/1.1\r\nHost: [fe80::1]:7245\r\n\r\n` to
`GET / HTTP/1.1\r\nHost: 127.0.0.1:7245\r\n\r\n` exactly. -/
theorem C7_theorem :
    rewriteHost 7245 ("GET / HTTP/1.1\r\nHost: [fe80::1]:7245\r\n\r\n".data)
      = ("GET / HTTP/1.1\r\nHost: 127.0.0.1:7245\r\n\r\n".data) := by
  decide

/-- C10: the port match is not anchored at a digit boundary: a buffer
addressing port 72450 still triggers the rewrite with target port 7245,
because the regex only requires the digits `7245` to follow `]:`; the span
`[::1]:7245` is replaced, yielding `127.0.0.1:72450`. -/
theorem C10_theorem :
    rewriteHost 7245 ("Host: [::1]:72450".data)
        = ("Host: 127.0.0.1:72450".data) ∧
      ("Host: 127.0.0.1:72450".data) ≠ ("Host: [::1]:72450".data) := by
  constructor
  · decide
  · decide

/-! ### safe_send (lines 27–53 of the source)

A non-blocking socket is modelled by the trace of outcomes its successive
`conn.send` calls deliver.  `safe_send` wraps the whole send loop in
`try ... except Exception: print(...)`, so no exception ever escapes to the
caller: the result type records how the function returned, and every
constructor is a normal return. -/

/-- Outcome of one `conn.send(msg[totalsent:])` call. -/
inductive SendStep where
  | sent : Nat → SendStep
  | wouldBlock : SendStep
  | err : SendStep
deriving DecidableEq

/-- How `safe_send` returned.  `done` is the normal loop exit with everything
sent; `caught` is the outer `except Exception` branch — the error is printed
and the function returns normally; `starved` marks the trace running out while
the loop still wants to send (the real loop would keep retrying). -/
inductive SendResult where
  | done : Nat → SendResult
  | caught : Nat → SendResult
  | starved : Nat → SendResult
deriving DecidableEq

/-- The `while totalsent < msg_len` loop of `safe_send` (lines 41–51):
a 0-byte send raises `RuntimeError`, a `BlockingIOError` sleeps and retries,
any other send exception propagates; every raised exception lands in the outer
`except Exception` which prints and returns (modelled as `caught`). -/
def sendLoop (msgLen : Nat) (totalsent : Nat) : List SendStep → SendResult
  | [] => if totalsent < msgLen then SendResult.starved totalsent
          else SendResult.done totalsent
  | step :: rest =>
    if totalsent < msgLen then
      match step with
      | SendStep.sent n =>
        if n = 0 then SendResult.caught totalsent
        else sendLoop msgLen (totalsent + n) rest
      | SendStep.wouldBlock => sendLoop msgLen totalsent rest
      | SendStep.err => SendResult.caught totalsent
    else SendResult.done totalsent

/-- `safe_send(conn, msg)`: returns immediately on an empty message (line 32),
otherwise runs the send loop. -/
def safe_send (trace : List SendStep) (msg : List Char) : SendResult :=
  if msg.length = 0 then SendResult.done 0 else sendLoop msg.length 0 trace

/-! ### Directional relay handlers (lines 106–154 of the source) -/

/-- Outcome of the `recv(4096)` call at the top of a handler: data (possibly
empty, meaning the peer closed), a reset/abort exception, or any other
exception. -/
inductive RecvOutcome where
  | ok : List Char → RecvOutcome
  | reset : RecvOutcome
  | err : RecvOutcome
deriving DecidableEq

/-- What one handler invocation did: the payload it handed to `safe_send` (if
it reached the send), the result `safe_send` returned (if invoked), and
whether `close_connection` was invoked on the pair. -/
structure HandlerOutcome where
  sentPayload : Option (List Char)
  sendResult : Option SendResult
  closedPair : Bool
deriving DecidableEq

/-- `read_from_client` (lines 106–134): on data, rewrite and forward to the
server; on empty read, reset/abort, or any other recv error, tear the pair
down.  Because `safe_send` catches every exception internally and returns
normally, control never reaches this handler's `except` clauses from the send
path, so the pair is not closed there. -/
def read_from_client (port : Nat) (rcv : RecvOutcome)
    (sendTrace : List SendStep) : HandlerOutcome :=
  match rcv with
  | RecvOutcome.ok data =>
    if data.length = 0 then ⟨none, none, true⟩
    else
      let fwd := rewriteHost port data
      ⟨some fwd, some (safe_send sendTrace fwd), false⟩
  | RecvOutcome.reset => ⟨none, none, true⟩
  | RecvOutcome.err => ⟨none, none, true⟩

/-- `read_from_server` (lines 136–154): identical control flow, but the data
is forwarded to the client with no modification. -/
def read_from_server (rcv : RecvOutcome) (sendTrace : List SendStep) :
    HandlerOutcome :=
  match rcv with
  | RecvOutcome.ok data =>
    if data.length = 0 then ⟨none, none, true⟩
    else ⟨some data, some (safe_send sendTrace data), false⟩
  | RecvOutcome.reset => ⟨none, none, true⟩
  | RecvOutcome.err => ⟨none, none, true⟩

/-! ### accept_connection (lines 84–104 of the source) -/

/-- Where the accept sequence first failed, if anywhere.  The sequence is:
`sock.accept()`, `socket.create_connection(("127.0.0.1", port))`,
`sel.register(client, ...)`, `sel.register(server, ...)`. -/
inductive AcceptStage where
  | acceptFails
  | connectFails
  | registerClientFails
  | registerServerFails
  | success
deriving DecidableEq

/-- State left behind by `accept_connection`: which sockets exist and remain
open when it returns, and which are registered with the selector. -/
structure AcceptOutcome where
  clientOpen : Bool
  serverOpen : Bool
  clientRegistered : Bool
  serverRegistered : Bool
deriving DecidableEq

/-- `accept_connection`: the `except Exception` clause (lines 103–104) only
prints — it closes nothing and unregisters nothing, so whatever was opened
before the failing step stays open, and whatever was registered stays
registered. -/
def accept_connection : AcceptStage → AcceptOutcome
  | AcceptStage.acceptFails => ⟨false, false, false, false⟩
  | AcceptStage.connectFails => ⟨true, false, false, false⟩
  | AcceptStage.registerClientFails => ⟨true, true, false, false⟩
  | AcceptStage.registerServerFails => ⟨true, true, true, false⟩
  | AcceptStage.success => ⟨true, true, true, true⟩

/-! ### close_connection (lines 156–176 of the source) -/

/-- Selector-registration and closed flags of the two sockets of one pair. -/
structure PairState where
  clientRegistered : Bool
  serverRegistered : Bool
  clientClosed : Bool
  serverClosed : Bool
deriving DecidableEq

/-- `self.sel.unregister(client)`: raises when the socket is not currently
registered, otherwise unregisters it. -/
def unregisterClient (ps : PairState) : Except String PairState :=
  if ps.clientRegistered then
    Except.ok ⟨false, ps.serverRegistered, ps.clientClosed, ps.serverClosed⟩
  else Except.error "KeyError"

/-- `self.sel.unregister(server)`. -/
def unregisterServer (ps : PairState) : Except String PairState :=
  if ps.serverRegistered then
    Except.ok ⟨ps.clientRegistered, false, ps.clientClosed, ps.serverClosed⟩
  else Except.error "KeyError"

/-- `client.close()`: modelled as raising when the socket was already closed,
to exercise the tolerance the spec requires of each step. -/
def closeClient (ps : PairState) : Except String PairState :=
  if ps.clientClosed then Except.error "already closed"
  else Except.ok ⟨ps.clientRegistered, ps.serverRegistered, true, ps.serverClosed⟩

/-- `server.close()`. -/
def closeServer (ps : PairState) : Except String PairState :=
  if ps.serverClosed then Except.error "already closed"
  else Except.ok ⟨ps.clientRegistered, ps.serverRegistered, ps.clientClosed, true⟩

/-- One `try: <step> except Exception: pass` block: a raising step leaves the
state unchanged and the error is swallowed. -/
def tryStep (step : PairState → Except String PairState) (ps : PairState) :
    PairState :=
  match step ps with
  | Except.ok ps2 => ps2
  | Except.error _ => ps

/-- `close_connection`: the four independent tolerant blocks, in source
order. -/
def close_connection (ps : PairState) : PairState :=
  tryStep closeServer (tryStep closeClient
    (tryStep unregisterServer (tryStep unregisterClient ps)))

/-! ### The run loop (lines 178–290 of the source) -/

/-- Loop-visible state of `run()`: the running flag, the set of sockets in the
selector map (listener plus pair halves, identified by numbers), and how many
`sel.select` calls have been made. -/
structure LoopState where
  running : Bool
  registered : List Nat
  polls : Nat
deriving DecidableEq

/-- A registration-table change performed by a handler during one readiness
batch. -/
inductive LoopAction where
  | registerSock : Nat → LoopAction
  | unregisterSock : Nat → LoopAction
deriving DecidableEq

/-- Apply one handler action to the selector map. -/
def applyAction (regs : List Nat) : LoopAction → List Nat
  | LoopAction.registerSock s => s :: regs
  | LoopAction.unregisterSock s => regs.filter (fun x => x ≠ s)

/-- What one trip through the `while self.running` body did: a
`KeyboardInterrupt` from `select` (sets `running = False` and breaks), any
other `select` exception (logged, sleep, continue), or a batch of ready
handlers with their registration-table effects. -/
inductive IterEvent where
  | keyboardInterrupt
  | pollError
  | batch : List LoopAction → IterEvent
deriving DecidableEq

/-- Effect of one loop iteration (one `sel.select` call). -/
def runIter (st : LoopState) : IterEvent → LoopState
  | IterEvent.keyboardInterrupt => ⟨false, st.registered, st.polls + 1⟩
  | IterEvent.pollError => ⟨st.running, st.registered, st.polls + 1⟩
  | IterEvent.batch acts => ⟨st.running, acts.foldl applyAction st.registered, st.polls + 1⟩

/-- The `while self.running` loop (lines 260–278): the flag is checked once
per iteration, before each poll. -/
def eventLoop (st : LoopState) : List IterEvent → LoopState
  | [] => st
  | e :: rest => if st.running then eventLoop (runIter st e) rest else st

/-- What the `finally` block (lines 282–290) leaves behind: the list of
sockets it closed and whether `sel.close()` ran. -/
structure FinalState where
  closedSockets : List Nat
  selectorClosed : Bool
deriving DecidableEq

/-- The `finally` block of `run()`: closes every fileobj in the selector map,
then closes the selector. -/
def runCleanup (st : LoopState) : FinalState :=
  ⟨st.registered, true⟩

/-- `run()` from the start of the event loop: iterate, then clean up. -/
def runLoop (st : LoopState) (events : List IterEvent) : FinalState :=
  runCleanup (eventLoop st events)

/-! ### Claims about safe_send, the handlers, accept, teardown and the loop -/

/-- C3 counterexample: on a ten-byte message with a socket that accepts 3
bytes and then raises, `safe_send` takes the `except Exception` branch: it
prints and returns normally (`caught`) with only 3 of 10 bytes sent.  Nothing
is signalled to the caller, refuting the claim that the buffer is never left
partly sent with the error unreported to the caller. -/
theorem C3_counterexample :
    safe_send [SendStep.sent 3, SendStep.err] ("0123456789".data)
        = SendResult.caught 3 ∧
      (3 : Nat) < ("0123456789".data).length := by
  constructor
  · decide
  · decide

/-- C3 (amended): when `safe_send` exits its loop normally the entire buffer
has been accepted by the socket; on an unrecoverable socket error (including a
0-byte send, treated as a broken connection) the exception is caught inside
`safe_send`, logged, and the function returns normally with the buffer only
partly sent — the failure is not signalled to the caller. -/
theorem C3_amended (trace : List SendStep) (msg : List Char) (n : Nat) :
    (safe_send trace msg = SendResult.done n → msg.length ≤ n) ∧
      (safe_send trace msg = SendResult.caught n → n < msg.length) := by
  have key : ∀ (t : List SendStep) (len ts : Nat),
      (sendLoop len ts t = SendResult.done n → len ≤ n) ∧
        (sendLoop len ts t = SendResult.caught n → n < len) := by
    intro t
    induction t with
    | nil =>
      intro len ts
      constructor
      · intro h
        by_cases hlt : ts < len
        · simp [sendLoop, hlt] at h
        · simp [sendLoop, hlt] at h
          omega
      · intro h
        by_cases hlt : ts < len <;> simp [sendLoop, hlt] at h
    | cons step rest ih =>
      intro len ts
      constructor
      · intro h
        by_cases hlt : ts < len
        · cases step with
          | sent k =>
            by_cases hk : k = 0
            · simp [sendLoop, hlt, hk] at h
            · simp only [sendLoop, if_pos hlt, if_neg hk] at h
              exact (ih len (ts + k)).1 h
          | wouldBlock =>
            simp only [sendLoop, if_pos hlt] at h
            exact (ih len ts).1 h
          | err => simp [sendLoop, hlt] at h
        · simp [sendLoop, hlt] at h
          omega
      · intro h
        by_cases hlt : ts < len
        · cases step with
          | sent k =>
            by_cases hk : k = 0
            · simp [sendLoop, hlt, hk] at h
              omega
            · simp only [sendLoop, if_pos hlt, if_neg hk] at h
              exact (ih len (ts + k)).2 h
          | wouldBlock =>
            simp only [sendLoop, if_pos hlt] at h
            exact (ih len ts).2 h
          | err =>
            simp [sendLoop, hlt] at h
            omega
        · simp [sendLoop, hlt] at h
  constructor
  · intro h
    by_cases hz : msg.length = 0
    · simp [hz]
    · rw [safe_send, if_neg hz] at h
      exact (key trace msg.length 0).1 h
  · intro h
    by_cases hz : msg.length = 0
    · rw [safe_send, if_pos hz] at h
      simp at h
    · rw [safe_send, if_neg hz] at h
      exact (key trace msg.length 0).2 h

/-- C3 witness: the amended statement applied to the concrete trace of the
counterexample. -/
theorem C3_witness : (3 : Nat) < ("0123456789".data).length :=
  (C3_amended [SendStep.sent 3, SendStep.err] ("0123456789".data) 3).2 (by decide)

/-- C4 counterexample: the client handler reads ten bytes, `safe_send` hits an
unrecoverable send error on the destination socket after 3 bytes
(`SendResult.caught 3`), yet `close_connection` is not invoked — the pair
stays registered, refuting the claim that a send-side error also tears the
pair down. -/
theorem C4_counterexample :
    (read_from_client 7245 (RecvOutcome.ok ("0123456789".data))
        [SendStep.sent 3, SendStep.err]).sendResult
        = some (SendResult.caught 3) ∧
      (read_from_client 7245 (RecvOutcome.ok ("0123456789".data))
        [SendStep.sent 3, SendStep.err]).closedPair = false := by
  constructor
  · decide
  · decide

/-- C4 (amended): a recv error not classified as reset/abort or EOF is logged
and tears the pair down, but a send-side error on the destination socket does
not: it is caught inside `safe_send`, only logged, and the pair is left
registered — the handler never closes the pair on the non-empty-read path,
whatever the send trace does. -/
theorem C4_amended (port : Nat) (data : List Char) (trace : List SendStep) :
    (read_from_client port RecvOutcome.err trace).closedPair = true ∧
      (data.length ≠ 0 →
        (read_from_client port (RecvOutcome.ok data) trace).closedPair = false) := by
  constructor
  · rfl
  · intro h
    simp [read_from_client, h]

/-- C4 witness: the amended statement at a concrete non-empty read. -/
theorem C4_witness :
    (read_from_client 7245 (RecvOutcome.ok ("x".data)) []).closedPair = false :=
  (C4_amended 7245 ("x".data) []).2 (by decide)

/-- C6: the upstream→client handler forwards every non-empty read verbatim:
the payload handed to `safe_send` is exactly the bytes that were read. -/
theorem C6_theorem (data : List Char) (trace : List SendStep)
    (h : data.length ≠ 0) :
    (read_from_server (RecvOutcome.ok data) trace).sentPayload = some data := by
  simp [read_from_server, h]

/-- C6 witness: concrete non-empty upstream data is forwarded unmodified. -/
theorem C6_witness :
    (read_from_server (RecvOutcome.ok ("Host: [fe80::1]:7245".data))
        []).sentPayload = some ("Host: [fe80::1]:7245".data) :=
  C6_theorem ("Host: [fe80::1]:7245".data) [] (by decide)

/-- C2 counterexample: when the upstream connect fails (nothing listening on
the target port), the accepted client socket is left open — the `except`
clause only prints, it closes nothing — refuting the claim that the acceptor
closes every socket it had already opened.  Nothing is registered, as the
claim also says. -/
theorem C2_counterexample :
    (accept_connection AcceptStage.connectFails).clientOpen = true ∧
      (accept_connection AcceptStage.connectFails).clientRegistered = false ∧
      (accept_connection AcceptStage.connectFails).serverRegistered = false := by
  constructor
  · rfl
  · constructor <;> rfl

/-- C2 (amended): on a failure during accept or during the upstream connect,
`accept_connection` registers nothing with the event loop — no partial
ConnectionPair is exposed — but it does not close the sockets it has already
opened: after a failed upstream connect the accepted client socket remains
open. -/
theorem C2_amended (st : AcceptStage)
    (h : st = AcceptStage.acceptFails ∨ st = AcceptStage.connectFails) :
    (accept_connection st).clientRegistered = false ∧
      (accept_connection st).serverRegistered = false ∧
      (st = AcceptStage.connectFails → (accept_connection st).clientOpen = true) := by
  rcases h with h | h <;> subst h <;> refine ⟨rfl, rfl, ?_⟩
  · intro h; cases h
  · intro _; rfl

/-- C2 witness: the amended statement at the failed-upstream-connect stage. -/
theorem C2_witness :
    (accept_connection AcceptStage.connectFails).clientRegistered = false ∧
      (accept_connection AcceptStage.connectFails).serverRegistered = false ∧
      (AcceptStage.connectFails = AcceptStage.connectFails →
        (accept_connection AcceptStage.connectFails).clientOpen = true) :=
  C2_amended AcceptStage.connectFails (Or.inr rfl)

/-- C8: from every state of the two sockets — registered or already
unregistered, open or already closed — `close_connection` runs to completion
(each raising step is swallowed by its own `try/except pass`), leaves both
sockets unregistered and closed, and invoking it a second time changes
nothing. -/
theorem C8_theorem :
    ∀ ps : PairState,
      close_connection ps = ⟨false, false, true, true⟩ ∧
        close_connection (close_connection ps) = close_connection ps := by
  intro ps
  obtain ⟨a, b, c, d⟩ := ps
  cases a <;> cases b <;> cases c <;> cases d <;> exact ⟨rfl, rfl⟩

/-- C9: once the running flag is false the loop performs no further poll
iteration (the state, including the poll count, is unchanged no matter what
events would have followed); and the cleanup that `run()` executes before
returning closes every socket still registered at loop exit and releases the
selector. -/
theorem C9_theorem (st : LoopState) (events : List IterEvent) :
    (st.running = false → eventLoop st events = st) ∧
      (∀ s, s ∈ (eventLoop st events).registered →
        s ∈ (runLoop st events).closedSockets) ∧
      (runLoop st events).selectorClosed = true := by
  refine ⟨?_, ?_, rfl⟩
  · intro h
    cases events with
    | nil => rfl
    | cons e rest => simp [eventLoop, h]
  · intro s hs
    exact hs

/-- C9 witness: a stopped loop with two registered sockets ignores a pending
event and the cleanup closes a registered socket. -/
theorem C9_witness :
    eventLoop ⟨false, [5, 7], 3⟩ [IterEvent.pollError] = ⟨false, [5, 7], 3⟩ ∧
      5 ∈ (runLoop ⟨false, [5, 7], 3⟩ [IterEvent.pollError]).closedSockets :=
  ⟨(C9_theorem ⟨false, [5, 7], 3⟩ [IterEvent.pollError]).1 rfl,
    (C9_theorem ⟨false, [5, 7], 3⟩ [IterEvent.pollError]).2.1 5 (by decide)⟩
